import Mathlib

/-!
Verification of the Recruitement repository (bilaljaved942/Recruitement).

The repository ships a browser UI layer (`frontend/js/api.js` and an auth UI
handler) together with a README describing the backend shortlist-and-notify
workflow.  The workflow components (RankingSelector, StatusTransitioner,
NotificationDispatcher) are not present in the shipped source, so they are
modelled from the specification text; the UI-layer functions are embedded
directly from `frontend/js/api.js` and the auth UI handler file.
-/

/-! ## Data model (spec §3)

Modelled from the spec: the backend `Application` record is not in the
shipped source.  Fields follow spec §3: identifier, job identifier,
applicant identifier, resume reference, AI score (numeric 0–100), status
enum, created timestamp (timestamps are modelled as naturals). -/

inductive Status where
  | pending
  | reviewed
  | shortlisted
  | rejected
  | hired
deriving DecidableEq, Repr

structure Application where
  id : Nat
  jobId : Nat
  applicantId : Nat
  resume : String
  score : Nat
  status : Status
  created : Nat
deriving DecidableEq, Repr

/-! ## RankingSelector (spec §4.1)

Modelled from the spec: `RankingSelector.select` is backend code absent from
the shipped source.  Per §4.1 it filters out applications already `hired` or
`rejected`, sorts by score descending with ties broken by earliest created
timestamp, takes the first N, and fails with `InvalidThreshold` when N ≤ 0. -/

/-- Modelled from the spec: an application is in a selectable state when it is
not already `hired` or `rejected` (spec §4.1, first bullet). -/
def eligible (a : Application) : Bool :=
  match a.status with
  | Status.hired => false
  | Status.rejected => false
  | _ => true

/-- Modelled from the spec: the ranking order — score descending, ties broken
by earliest created timestamp (spec §4.1, second bullet). -/
def rankBefore (a b : Application) : Prop :=
  b.score < a.score ∨ (a.score = b.score ∧ a.created ≤ b.created)

instance : DecidableRel rankBefore := fun a b => by
  unfold rankBefore; infer_instance

instance : IsTotal Application rankBefore where
  total a b := by
    unfold rankBefore
    rcases Nat.lt_trichotomy a.score b.score with h | h | h
    · exact Or.inr (Or.inl h)
    · rcases Nat.le_total a.created b.created with hc | hc
      · exact Or.inl (Or.inr ⟨h, hc⟩)
      · exact Or.inr (Or.inr ⟨h.symm, hc⟩)
    · exact Or.inl (Or.inl h)

instance : IsTrans Application rankBefore where
  trans a b c hab hbc := by
    unfold rankBefore at *
    rcases hab with h1 | ⟨h1, h1c⟩
    · rcases hbc with h2 | ⟨h2, _⟩
      · exact Or.inl (Nat.lt_trans h2 h1)
      · exact Or.inl (h2 ▸ h1)
    · rcases hbc with h2 | ⟨h2, h2c⟩
      · exact Or.inl (h1 ▸ h2)
      · exact Or.inr ⟨h1.trans h2, Nat.le_trans h1c h2c⟩

inductive SelectError where
  | invalidThreshold
deriving DecidableEq, Repr

namespace RankingSelector

/-- Modelled from the spec: `RankingSelector.select` (spec §4.1).  Fails with
`InvalidThreshold` when the threshold is ≤ 0; otherwise filters to eligible
applications, sorts them by `rankBefore` and returns the first N. -/
def select (apps : List Application) (threshold : Int) :
    Except SelectError (List Application) :=
  if threshold ≤ 0 then Except.error SelectError.invalidThreshold
  else Except.ok
    ((List.insertionSort rankBefore (apps.filter eligible)).take threshold.toNat)

end RankingSelector

/-! ## StatusTransitioner (spec §4.2)

Modelled from the spec: `StatusTransitioner.markShortlisted` is backend code
absent from the shipped source.  The application store is modelled as a list
of `Application` records; ids are looked up by the `id` field.  Per §4.2, for
each id the status becomes `shortlisted` only if the current status is
`pending` or `reviewed`; otherwise the id is recorded as skipped (not an
error), and the operation returns the updated and skipped id sets. -/

namespace StatusTransitioner

/-- Modelled from the spec: a status admits the transition to `shortlisted`
exactly when it is `pending` or `reviewed` (spec §4.2, first bullet). -/
def eligibleStatus (s : Status) : Bool :=
  match s with
  | Status.pending => true
  | Status.reviewed => true
  | _ => false

/-- Current status of the application with the given id, if present (lookup
by the `id` field, first match). -/
def statusOf : List Application → Nat → Option Status
  | [], _ => none
  | a :: rest, i => if a.id == i then some a.status else statusOf rest i

/-- Whether the id currently admits the transition: it must be present and
its status must be `pending` or `reviewed`. -/
def canShortlist (store : List Application) (i : Nat) : Bool :=
  match statusOf store i with
  | some s => eligibleStatus s
  | none => false

/-- Per-record update applied across the store: a record whose id was
requested and whose status is eligible becomes `shortlisted`. -/
def updateOne (ids : List Nat) (a : Application) : Application :=
  if ids.contains a.id && eligibleStatus a.status then
    { a with status := Status.shortlisted }
  else a

structure MarkResult where
  store : List Application
  updated : List Nat
  skipped : List Nat
deriving DecidableEq, Repr

/-- Modelled from the spec: `StatusTransitioner.markShortlisted` (spec §4.2).
Transitions every requested id whose current status is `pending` or
`reviewed` to `shortlisted`, reports it in `updated`, and reports every other
requested id in `skipped`. -/
def markShortlisted (store : List Application) (ids : List Nat) : MarkResult :=
  { store := store.map (updateOne ids)
    updated := ids.filter (fun i => canShortlist store i)
    skipped := ids.filter (fun i => !canShortlist store i) }

end StatusTransitioner

/-! ## NotificationDispatcher (spec §4.3)

Modelled from the spec: the notification code is backend code absent from the
shipped source.  The email transport (spec §6) is abstracted as a boolean
send oracle: `send a` tells whether the interview invitation for candidate
`a` is ultimately delivered (retries of transient failures are folded into
the oracle).  Each candidate is attempted independently, then a single HR
summary is produced that lists every selected candidate and flags the ones
whose notification failed. -/

namespace NotificationDispatcher

structure NotificationOutcome where
  appId : Nat
  sent : Bool
deriving DecidableEq, Repr

/-- One independent candidate attempt: the outcome for a candidate depends
only on that candidate and the transport. -/
def attemptCandidate (send : Application → Bool) (a : Application) :
    NotificationOutcome :=
  { appId := a.id, sent := send a }

/-- Modelled from the spec: `notifyCandidates` attempts the email of every
selected candidate independently (spec §4.3, first bullet). -/
def notifyCandidates (send : Application → Bool) (selected : List Application) :
    List NotificationOutcome :=
  selected.map (attemptCandidate send)

structure HRSummary where
  listed : List Nat
  notReached : List Nat
deriving DecidableEq, Repr

/-- Modelled from the spec: the HR summary lists every selected candidate and
flags the recipients that were not reached (spec §4.3, third bullet). -/
def notifyHR (selected : List Application)
    (outcomes : List NotificationOutcome) : HRSummary :=
  { listed := selected.map (fun a => a.id)
    notReached := (outcomes.filter (fun o => !o.sent)).map (fun o => o.appId) }

/-- Modelled from the spec: the dispatch step of the workflow — all candidate
attempts complete first, then the HR summary is produced from the outcomes
(spec §4.3; the summary is always sent, whatever the candidate outcomes). -/
def dispatch (send : Application → Bool) (selected : List Application) :
    List NotificationOutcome × HRSummary :=
  let outcomes := notifyCandidates send selected
  (outcomes, notifyHR selected outcomes)

end NotificationDispatcher

/-! ## String helpers

Small executable helpers used to state substring properties of the rendered
HTML and to model the JSON (de)serialisation that `api.js` performs through
`JSON.stringify` / `JSON.parse`. -/

/-- Test whether the character list `p` starts the list `s`. -/
def leads : List Char → List Char → Bool
  | [], _ => true
  | _ :: _, [] => false
  | c :: p, d :: s => c == d && leads p s

/-- Test whether `p` occurs contiguously inside `s`. -/
def containsSeq (p : List Char) : List Char → Bool
  | [] => leads p []
  | d :: s => leads p (d :: s) || containsSeq p s

/-- Test whether the string `p` occurs inside the string `s`. -/
def hasSubstr (p s : String) : Bool :=
  containsSeq p.data s.data

/-! JSON string escaping, as performed by `JSON.stringify` on string values.
Quotes and backslashes are escaped with a backslash; escaping of control
characters is elided (it does not affect the round-trip property). -/

/-- Escape one character for inclusion in a JSON string literal. -/
def escapeChar (c : Char) : List Char :=
  if c = '"' ∨ c = '\\' then ['\\', c] else [c]

/-- Escape a whole character list. -/
def escapeList (l : List Char) : List Char :=
  l.flatMap escapeChar

/-- Escape a string for inclusion in a JSON string literal. -/
def jsonEscape (s : String) : String :=
  String.mk (escapeList s.data)

/-- Read a JSON string body up to (and consuming) the closing quote,
undoing the escaping; returns the decoded characters and the rest. -/
def unescape : List Char → Option (List Char × List Char)
  | [] => none
  | c :: rest =>
    if c = '"' then some ([], rest)
    else if c = '\\' then
      match rest with
      | [] => none
      | d :: rest2 =>
        (unescape rest2).map (fun p => (d :: p.1, p.2))
    else (unescape rest).map (fun p => (c :: p.1, p.2))

/-- Drop an expected literal from the front of the input, or fail. -/
def dropLit (p s : List Char) : Option (List Char) :=
  if leads p s then some (s.drop p.length) else none

/-! ## The user object and its JSON round trip

The frontend reads `user.role` and `user.full_name` from the stored user
object (auth UI handler, `initNavbar` / `redirectIfLoggedIn`), so the user
object is modelled with those two string fields.  `JSON.stringify` /
`JSON.parse` on such an object are modelled by an executable codec over the
concrete JSON shape of the object. -/

structure User where
  role : String
  full_name : String
deriving DecidableEq, Repr

/-- Model of `JSON.stringify(user)` for the two-field user object
(`\x7b"role":…,"full_name":…\x7d` with JSON string escaping). -/
def stringifyUser (u : User) : String :=
  "\x7b\"role\":\"" ++ jsonEscape u.role ++ "\",\"full_name\":\"" ++
    jsonEscape u.full_name ++ "\"\x7d"

/-- Model of `JSON.parse` specialised to the user-object shape produced by
`stringifyUser`: any other input yields `none` (where `JSON.parse` throws). -/
def parseUser (s : String) : Option User :=
  (dropLit "\x7b\"role\":\"".data s.data).bind fun r1 =>
  (unescape r1).bind fun rolePair =>
  (dropLit ",\"full_name\":\"".data rolePair.2).bind fun r3 =>
  (unescape r3).bind fun namePair =>
  if namePair.2 = "\x7d".data then
    some { role := String.mk rolePair.1, full_name := String.mk namePair.1 }
  else none

/-! ## Auth storage (`frontend/js/api.js`, lines 10–43)

`localStorage` is modelled by its two keys used in the source, each holding
an optional string (`getItem` returns null for a missing key). -/

structure LocalStorage where
  token : Option String
  user : Option String
deriving DecidableEq, Repr

/-- Function `getToken` (`api.js` line 10): reads the token key from local storage. -/
def getToken (st : LocalStorage) : Option String :=
  st.token

/-- Function `getCurrentUser` (`api.js` line 17): `JSON.parse` of the stored user
string when present, else null. -/
def getCurrentUser (st : LocalStorage) : Option User :=
  match st.user with
  | some s => parseUser s
  | none => none

/-- Function `saveAuth` (`api.js` line 25): stores the token and the JSON-stringified
user object. -/
def saveAuth (st : LocalStorage) (token : String) (user : User) : LocalStorage :=
  let st1 := { st with token := some token }
  { st1 with user := some (stringifyUser user) }

/-- Function `clearAuth` (`api.js` line 33): removes both keys. -/
def clearAuth (st : LocalStorage) : LocalStorage :=
  let st1 := { st with token := none }
  { st1 with user := none }

/-- Function `isAuthenticated` (`api.js` line 41): `!!getToken()` — JavaScript
truthiness, under which both a missing token and an empty-string token are
false. -/
def isAuthenticated (st : LocalStorage) : Bool :=
  match getToken st with
  | some t => !t.isEmpty
  | none => false

/-! ## `apiRequest` (`frontend/js/api.js`, lines 48–84)

The request-building half is modelled as a pure function from the storage
state, the endpoint, and the options object to the `fetch` call it issues;
the response-handling half as a pure function from the response to the new
storage state, the navigation side effect, and the returned/thrown result.
The `FormData` body path (file upload) is outside the embedded fragment;
bodies here are the JSON strings produced by `JSON.stringify`. -/

def API_BASE_URL : String := "http://localhost:8000"

structure RequestOptions where
  method : Option String
  body : Option String
deriving DecidableEq, Repr

structure FetchCall where
  url : String
  method : String
  body : Option String
  authHeader : Option String
  contentTypeJson : Bool
deriving DecidableEq, Repr

/-- The `fetch` call issued by `apiRequest(endpoint, options)` (`api.js`
lines 48–68): URL is `API_BASE_URL + endpoint`; the `Authorization` header is
added when the token is truthy; `Content-Type: application/json` is added
when a (truthy, non-`FormData`) body is present; `fetch` defaults the method
to GET when the options carry none. -/
def apiRequestCall (st : LocalStorage) (endpoint : String)
    (options : RequestOptions) : FetchCall :=
  { url := API_BASE_URL ++ endpoint
    method := options.method.getD "GET"
    body := options.body
    authHeader :=
      match getToken st with
      | some t => if t.isEmpty then none else some ("Bearer " ++ t)
      | none => none
    contentTypeJson :=
      match options.body with
      | some b => !b.isEmpty
      | none => false }

structure HttpResponse where
  status : Nat
  detail : Option String
  data : String
deriving DecidableEq, Repr

/-- Field `response.ok` per the fetch specification: status in 200–299. -/
def responseOk (r : HttpResponse) : Bool :=
  200 ≤ r.status && r.status ≤ 299

structure ApiStep where
  store : LocalStorage
  redirect : Option String
  result : Except String String
deriving Repr

/-- The response-handling half of `apiRequest` (`api.js` lines 70–84): on
status 401 it clears the auth storage, redirects to `/login.html` and throws
`Session expired`; on any other non-ok response it throws
`data.detail`, defaulting to the generic error message; otherwise it
returns the data. -/
def apiRequestHandle (st : LocalStorage) (r : HttpResponse) : ApiStep :=
  if r.status == 401 then
    { store := clearAuth st
      redirect := some "/login.html"
      result := Except.error "Session expired" }
  else if !responseOk r then
    { store := st, redirect := none
      result := Except.error (r.detail.getD "An error occurred") }
  else
    { store := st, redirect := none, result := Except.ok r.data }

/-! ## Application API wrappers (`frontend/js/api.js`, lines 177–190) -/

/-- The call issued by `getApplicationsForJob(jobId)` (`api.js` line 177):
`apiRequest` on `/applications/job/$\x7bjobId\x7d` with no options, so no
method and no body. -/
def getApplicationsForJobCall (st : LocalStorage) (jobId : Nat) : FetchCall :=
  apiRequestCall st ("/applications/job/" ++ toString jobId)
    { method := none, body := none }

/-- The call issued by `updateApplicationStatus(applicationId, status)`
(`api.js` line 185): `apiRequest` on
`/applications/$\x7bapplicationId\x7d/status` with method PUT and body
`JSON.stringify(\x7b status \x7d)`. -/
def updateApplicationStatusCall (st : LocalStorage) (applicationId : Nat)
    (status : String) : FetchCall :=
  apiRequestCall st ("/applications/" ++ toString applicationId ++ "/status")
    { method := some "PUT"
      body := some ("\x7b\"status\":\"" ++ jsonEscape status ++ "\"\x7d") }

/-! ## `getStatusBadgeClass` (`frontend/js/api.js`, lines 211–223)

The source evaluates `classes[status] || ...` on a plain object literal.
JavaScript bracket lookup checks the own keys first and then the prototype
chain, so a key such as toString or constructor finds the inherited
`Object.prototype` member — a truthy function (or, for `__proto__`, the
prototype object itself) — and the default is only returned when the
looked-up value is falsy (undefined for absent keys).  The embedding keeps
that structure: own keys in the order of the object literal, then the
prototype members, then the truthiness test of the `||` operator. -/

/-- Value space of the bracket lookup: own entries of the object literal are
strings; a key found on the prototype chain yields the inherited
`Object.prototype` member, a non-string value. -/
inductive JsValue where
  | str (s : String)
  | inheritedMember (name : String)
deriving DecidableEq, Repr

/-- Names of the standard `Object.prototype` members reachable by bracket
lookup on an object literal in a web JS runtime. -/
def objectPrototypeKeys : List String :=
  ["constructor", "hasOwnProperty", "isPrototypeOf", "propertyIsEnumerable",
   "toLocaleString", "toString", "valueOf", "__proto__", "__defineGetter__",
   "__defineSetter__", "__lookupGetter__", "__lookupSetter__"]

/-- JavaScript truthiness of a looked-up value, as tested by `||`: a string
is truthy when non-empty; the inherited members are functions (or the
prototype object), always truthy. -/
def jsTruthy : JsValue → Bool
  | JsValue.str s => !s.isEmpty
  | JsValue.inheritedMember _ => true

/-- The bracket lookup `classes[status]` (`api.js` lines 212–221): own keys
of the object literal first, then the prototype chain, else undefined
(`none`). -/
def classesLookup (status : String) : Option JsValue :=
  if status == "pending" then some (JsValue.str "badge-warning")
  else if status == "reviewed" then some (JsValue.str "badge-info")
  else if status == "shortlisted" then some (JsValue.str "badge-success")
  else if status == "rejected" then some (JsValue.str "badge-danger")
  else if status == "hired" then some (JsValue.str "badge-success")
  else if status == "active" then some (JsValue.str "badge-success")
  else if status == "closed" then some (JsValue.str "badge-danger")
  else if status == "draft" then some (JsValue.str "badge-warning")
  else if objectPrototypeKeys.contains status then
    some (JsValue.inheritedMember status)
  else none

/-- Embedding of `getStatusBadgeClass` (`api.js` line 222): the looked-up
value when truthy, else the default badge-primary string. -/
def getStatusBadgeClass (status : String) : JsValue :=
  match classesLookup status with
  | some v => if jsTruthy v then v else JsValue.str "badge-primary"
  | none => JsValue.str "badge-primary"

/-! ## Navbar rendering (auth UI handler, `initNavbar`, lines 8–40)

`initNavbar` reads the stored user via `getCurrentUser()` and assigns the two
`innerHTML` template strings (reproduced verbatim, including the whitespace
of the template literals).  The early return when the two navbar DOM
elements are absent sets nothing and is outside the embedded fragment; the
JavaScript `toUpperCase` is modelled by `String.toUpper`. -/

structure NavbarView where
  nav : String
  user : String
deriving DecidableEq, Repr

/-- The dashboard link chosen in `initNavbar` (line 17):
the conditional on `user.role` choosing hr-dashboard.html for the hr role
and applicant-dashboard.html otherwise. -/
def dashboardLink (u : User) : String :=
  if u.role == "hr" then "hr-dashboard.html" else "applicant-dashboard.html"

/-- The two `innerHTML` strings `initNavbar` assigns, as a function of the
stored user (lines 15–39). -/
def initNavbar : Option User → NavbarView
  | some u =>
    { nav := "\n            <li><a href=\"jobs.html\">Browse Jobs</a></li>\n            <li><a href=\"" ++
        dashboardLink u ++ "\">Dashboard</a></li>\n        "
      user := "\n            <span class=\"user-badge\">" ++ u.role.toUpper ++
        "</span>\n            <span class=\"text-secondary\">" ++ u.full_name ++
        "</span>\n            <button class=\"btn btn-outline btn-sm\" onclick=\"logout()\">Logout</button>\n        " }
  | none =>
    { nav := "\n            <li><a href=\"jobs.html\">Browse Jobs</a></li>\n        "
      user := "\n            <a href=\"login.html\" class=\"btn btn-outline btn-sm\">Login</a>\n            <a href=\"register.html\" class=\"btn btn-primary btn-sm\">Register</a>\n        " }

/-- Function `initNavbar` as run on page load: its input is exactly the stored auth
state, `getCurrentUser()` (line 9). -/
def initNavbarFromStorage (st : LocalStorage) : NavbarView :=
  initNavbar (getCurrentUser st)

/-! ## Concrete inputs used by the witnesses

`demoApps` is the ranking scenario of spec §8: five pending applications
with scores [90, 80, 80, 70, 50], the second-created tie at 80 before the
third-created. -/

def demoApps : List Application :=
  [ { id := 1, jobId := 7, applicantId := 11, resume := "r1", score := 90
      status := Status.pending, created := 1 }
  , { id := 2, jobId := 7, applicantId := 12, resume := "r2", score := 80
      status := Status.pending, created := 2 }
  , { id := 3, jobId := 7, applicantId := 13, resume := "r3", score := 80
      status := Status.pending, created := 3 }
  , { id := 4, jobId := 7, applicantId := 14, resume := "r4", score := 70
      status := Status.pending, created := 4 }
  , { id := 5, jobId := 7, applicantId := 15, resume := "r5", score := 50
      status := Status.pending, created := 5 } ]

/-! # Theorems -/

/-! ## String and codec lemmas -/

theorem leads_append (p r : List Char) : leads p (p ++ r) = true := by
  induction p with
  | nil => rfl
  | cons c p ih => simp [leads, ih]

theorem containsSeq_cons (p : List Char) (d : Char) (s : List Char) :
    containsSeq p (d :: s) = (leads p (d :: s) || containsSeq p s) := rfl

theorem containsSeq_infix (a p b : List Char) :
    containsSeq p (a ++ (p ++ b)) = true := by
  induction a with
  | nil =>
    cases p with
    | nil =>
      cases b with
      | nil => rfl
      | cons d s => simp [containsSeq_cons, leads]
    | cons c q =>
      have h := leads_append (c :: q) b
      simp only [List.cons_append] at h
      simp [containsSeq_cons, h]
  | cons d a ih =>
    simp only [List.cons_append]
    simp [containsSeq_cons, ih]

theorem containsSeq_append_left (a p s : List Char)
    (h : containsSeq p s = true) : containsSeq p (a ++ s) = true := by
  induction a with
  | nil => simpa using h
  | cons d a ih => simp [containsSeq_cons, ih]

theorem data_append (a b : String) : (a ++ b).data = a.data ++ b.data := by
  cases a; cases b; rfl

theorem hasSubstr_of_parts (a p b : String) :
    hasSubstr p (a ++ (p ++ b)) = true := by
  unfold hasSubstr
  rw [data_append, data_append]
  exact containsSeq_infix a.data p.data b.data

theorem hasSubstr_append_left (a p s : String)
    (h : hasSubstr p s = true) : hasSubstr p (a ++ s) = true := by
  unfold hasSubstr at *
  rw [data_append]
  exact containsSeq_append_left a.data p.data s.data h

theorem unescape_escape (l rest : List Char) :
    unescape (escapeList l ++ ('"' :: rest)) = some (l, rest) := by
  induction l with
  | nil =>
    show unescape ('"' :: rest) = some ([], rest)
    rw [unescape.eq_def]
    simp
  | cons c l ih =>
    by_cases hc : c = '"' ∨ c = '\\'
    · have h1 : escapeList (c :: l) = '\\' :: c :: escapeList l := by
        simp [escapeList, escapeChar, hc]
      have hq : ('\\' : Char) ≠ '"' := by decide
      rw [h1, List.cons_append, List.cons_append, unescape.eq_def]
      simp [hq, ih]
    · push_neg at hc
      have h1 : escapeList (c :: l) = c :: escapeList l := by
        simp [escapeList, escapeChar, hc.1, hc.2]
      rw [h1, List.cons_append, unescape.eq_def]
      simp [hc.1, hc.2, ih]

theorem dropLit_append (p r : List Char) : dropLit p (p ++ r) = some r := by
  simp [dropLit, leads_append, List.drop_left]

theorem dropLit_nil (s : List Char) : dropLit [] s = some s := by
  simp [dropLit, leads]

theorem dropLit_cons (c : Char) (p s : List Char) :
    dropLit (c :: p) (c :: s) = dropLit p s := by
  simp [dropLit, leads]

theorem stringifyUser_data (rl nl : List Char) :
    (stringifyUser { role := String.mk rl, full_name := String.mk nl }).data =
      "\x7b\"role\":\"".data ++ (escapeList rl ++ ('"' ::
        (",\"full_name\":\"".data ++ (escapeList nl ++ ('"' :: "\x7d".data))))) := by
  simp [stringifyUser, data_append, jsonEscape, List.append_assoc]

theorem parseUser_stringifyUser (u : User) :
    parseUser (stringifyUser u) = some u := by
  obtain ⟨⟨rl⟩, ⟨nl⟩⟩ := u
  unfold parseUser
  rw [stringifyUser_data]
  simp [dropLit_cons, dropLit_nil, unescape_escape]

/-! ## StatusTransitioner lemmas -/

namespace StatusTransitioner

theorem updateOne_id (ids : List Nat) (a : Application) :
    (updateOne ids a).id = a.id := by
  unfold updateOne
  split <;> rfl

theorem updateOne_status (ids : List Nat) (a : Application) :
    (updateOne ids a).status =
      if ids.contains a.id && eligibleStatus a.status then Status.shortlisted
      else a.status := by
  unfold updateOne
  split <;> simp_all

theorem updateOne_idem (ids : List Nat) (a : Application) :
    updateOne ids (updateOne ids a) = updateOne ids a := by
  by_cases h : (ids.contains a.id && eligibleStatus a.status) = true
  · have h1 : updateOne ids a = { a with status := Status.shortlisted } := by
      unfold updateOne
      rw [if_pos h]
    have h2 : eligibleStatus Status.shortlisted = false := rfl
    rw [h1]
    unfold updateOne
    simp [h2]
  · have h1 : updateOne ids a = a := by
      unfold updateOne
      rw [if_neg h]
    rw [h1, h1]

theorem statusOf_map_updateOne (store : List Application) (ids : List Nat)
    (i : Nat) :
    statusOf (store.map (updateOne ids)) i =
      (statusOf store i).map
        (fun s => if ids.contains i && eligibleStatus s then Status.shortlisted
          else s) := by
  induction store with
  | nil => rfl
  | cons a rest ih =>
    simp only [List.map_cons, statusOf, updateOne_id]
    by_cases h : a.id == i
    · have hid : a.id = i := by simpa using h
      simp [h, updateOne_status, hid]
    · simp [h, ih]

theorem canShortlist_map_updateOne (store : List Application) (ids : List Nat)
    (i : Nat) :
    canShortlist (store.map (updateOne ids)) i =
      (canShortlist store i && !ids.contains i) := by
  unfold canShortlist
  rw [statusOf_map_updateOne]
  cases hs : statusOf store i with
  | none => simp
  | some s =>
    have hss : eligibleStatus Status.shortlisted = false := rfl
    simp only [Option.map_some]
    cases hc : ids.contains i <;> cases he : eligibleStatus s <;>
      simp [hc, he, hss]

theorem map_updateOne_idem (ids : List Nat) (store : List Application) :
    (store.map (updateOne ids)).map (updateOne ids) = store.map (updateOne ids) := by
  induction store with
  | nil => rfl
  | cons a rest ih => simp only [List.map_cons, updateOne_idem, ih]

end StatusTransitioner

/-! ## Claim theorems -/

/-- C1: For every list of applications and every positive threshold N,
`RankingSelector.select` returns a sequence sorted by score descending (ties
broken by earliest created timestamp, i.e. sorted under `rankBefore`), whose
length is min(N, number of eligible applications); when fewer than N
eligible applications exist it returns all of them (a permutation of the
eligible list) without error. -/
theorem c1_select_sorted_min_length (apps : List Application) (N : Int)
    (h : 0 < N) :
    ∃ sel, RankingSelector.select apps N = Except.ok sel ∧
      List.Sorted rankBefore sel ∧
      sel.length = min N.toNat (apps.filter eligible).length ∧
      ((apps.filter eligible).length ≤ N.toNat →
        sel.Perm (apps.filter eligible)) := by
  have hn : ¬N ≤ 0 := not_le.mpr h
  refine ⟨(List.insertionSort rankBefore (apps.filter eligible)).take N.toNat,
    ?_, ?_, ?_, ?_⟩
  · simp [RankingSelector.select, hn]
  · exact List.Pairwise.take (List.sorted_insertionSort rankBefore _)
  · rw [List.length_take, List.length_insertionSort]
  · intro hle
    rw [List.take_of_length_le]
    · exact List.perm_insertionSort rankBefore _
    · rw [List.length_insertionSort]
      exact hle

/-- Witness for C1 at the spec §8 scenario (scores [90, 80, 80, 70, 50],
threshold 3). -/
theorem c1_select_witness :
    ∃ sel, RankingSelector.select demoApps 3 = Except.ok sel ∧
      List.Sorted rankBefore sel ∧
      sel.length = min (Int.toNat 3) (demoApps.filter eligible).length ∧
      ((demoApps.filter eligible).length ≤ Int.toNat 3 →
        sel.Perm (demoApps.filter eligible)) :=
  c1_select_sorted_min_length demoApps 3 (by decide)

/-- C2: `RankingSelector.select` fails with `InvalidThreshold` exactly when
the threshold N is zero or negative; for every positive N it does not raise
this error (`invalidThreshold` being the only error the selector can
raise). -/
theorem c2_select_invalidThreshold_iff (apps : List Application) (N : Int) :
    RankingSelector.select apps N = Except.error SelectError.invalidThreshold ↔
      N ≤ 0 := by
  unfold RankingSelector.select
  by_cases h : N ≤ 0 <;> simp [h]

/-- C3: `StatusTransitioner.markShortlisted` is idempotent: invoking it a
second time with the same id set, on the store produced by the first
invocation, reports no id as updated, reports every id as skipped, and
leaves the store unchanged (the operation is total, so no error arises). -/
theorem c3_markShortlisted_idempotent (store : List Application)
    (ids : List Nat) :
    (StatusTransitioner.markShortlisted
        (StatusTransitioner.markShortlisted store ids).store ids).updated = [] ∧
    (StatusTransitioner.markShortlisted
        (StatusTransitioner.markShortlisted store ids).store ids).skipped = ids ∧
    (StatusTransitioner.markShortlisted
        (StatusTransitioner.markShortlisted store ids).store ids).store =
      (StatusTransitioner.markShortlisted store ids).store := by
  refine ⟨?_, ?_, StatusTransitioner.map_updateOne_idem ids store⟩
  · show (ids.filter fun i =>
        StatusTransitioner.canShortlist
          (store.map (StatusTransitioner.updateOne ids)) i) = []
    rw [List.filter_eq_nil_iff]
    intro i hi
    rw [StatusTransitioner.canShortlist_map_updateOne]
    have hc : ids.contains i = true := List.elem_iff.mpr hi
    simp [hc]
    exact fun _ => hi
  · show (ids.filter fun i =>
        !StatusTransitioner.canShortlist
          (store.map (StatusTransitioner.updateOne ids)) i) = ids
    rw [List.filter_eq_self]
    intro i hi
    rw [StatusTransitioner.canShortlist_map_updateOne]
    have hc : ids.contains i = true := List.elem_iff.mpr hi
    simp [hc]
    exact Or.inr hi

/-- C4: `markShortlisted` preserves the application-status invariant: each
record keeps its id and score, the status of a record becomes `shortlisted` only
if its current status is `pending` or `reviewed` (otherwise the status is
unchanged), and a record whose status is `hired` or `rejected` is never
transitioned at all. -/
theorem c4_markShortlisted_status_invariant (store : List Application)
    (ids : List Nat) :
    List.Forall₂ (fun a a' =>
      a'.id = a.id ∧ a'.score = a.score ∧
      (a'.status = a.status ∨
        (a'.status = Status.shortlisted ∧
          (a.status = Status.pending ∨ a.status = Status.reviewed))) ∧
      ((a.status = Status.hired ∨ a.status = Status.rejected) → a' = a))
      store (StatusTransitioner.markShortlisted store ids).store := by
  show List.Forall₂ _ store (store.map (StatusTransitioner.updateOne ids))
  rw [List.forall₂_map_right_iff, List.forall₂_same]
  intro a _
  by_cases h : (ids.contains a.id && StatusTransitioner.eligibleStatus a.status)
      = true
  · have h1 : StatusTransitioner.updateOne ids a =
        { a with status := Status.shortlisted } := by
      unfold StatusTransitioner.updateOne
      rw [if_pos h]
    have he : StatusTransitioner.eligibleStatus a.status = true :=
      ((Bool.and_eq_true _ _).mp h).2
    have hpr : a.status = Status.pending ∨ a.status = Status.reviewed := by
      cases hst : a.status with
      | pending => exact Or.inl rfl
      | reviewed => exact Or.inr rfl
      | shortlisted => rw [hst] at he; exact absurd he (by decide)
      | rejected => rw [hst] at he; exact absurd he (by decide)
      | hired => rw [hst] at he; exact absurd he (by decide)
    rw [h1]
    refine ⟨rfl, rfl, Or.inr ⟨rfl, hpr⟩, ?_⟩
    intro hterm
    rcases hterm with ht | ht <;> rw [ht] at he <;> exact absurd he (by decide)
  · have h1 : StatusTransitioner.updateOne ids a = a := by
      unfold StatusTransitioner.updateOne
      rw [if_neg h]
    rw [h1]
    exact ⟨rfl, rfl, Or.inl rfl, fun _ => rfl⟩

/-- C5: For every selected sequence of candidates, the notification of every
candidate is attempted and its outcome depends only on that candidate
(so the failure of one candidate does not prevent the attempts for the others),
and the HR summary produced afterwards lists every selected candidate and
flags exactly the candidates whose notification failed. -/
theorem c5_notification_isolation (send : Application → Bool)
    (selected : List Application) :
    ((NotificationDispatcher.dispatch send selected).1).length =
      selected.length ∧
    List.Forall₂ (fun a o => o = NotificationDispatcher.attemptCandidate send a)
      selected (NotificationDispatcher.dispatch send selected).1 ∧
    (NotificationDispatcher.dispatch send selected).2.listed =
      selected.map (fun a => a.id) ∧
    (NotificationDispatcher.dispatch send selected).2.notReached =
      (selected.filter (fun a => !send a)).map (fun a => a.id) := by
  refine ⟨by simp [NotificationDispatcher.dispatch,
    NotificationDispatcher.notifyCandidates], ?_, rfl, ?_⟩
  · show List.Forall₂ _ selected
      (selected.map (NotificationDispatcher.attemptCandidate send))
    rw [List.forall₂_map_right_iff, List.forall₂_same]
    intro a _
    rfl
  · show ((selected.map (NotificationDispatcher.attemptCandidate send)).filter
        (fun o => !o.sent)).map (fun o => o.appId) =
      (selected.filter (fun a => !send a)).map (fun a => a.id)
    rw [List.filter_map, List.map_map]
    rfl

/-- The second of five appended pieces is a substring of the whole. -/
theorem hasSubstr_at2 (a p b q c : String) :
    hasSubstr p ((((a ++ p) ++ b) ++ q) ++ c) = true := by
  have h : (((a ++ p) ++ b) ++ q) ++ c = a ++ (p ++ (b ++ (q ++ c))) := by
    simp [String.append_assoc]
  rw [h]
  exact hasSubstr_of_parts a p (b ++ (q ++ c))

/-- The fourth of five appended pieces is a substring of the whole. -/
theorem hasSubstr_at4 (a p b q c : String) :
    hasSubstr q ((((a ++ p) ++ b) ++ q) ++ c) = true := by
  have h : (((a ++ p) ++ b) ++ q) ++ c = ((a ++ p) ++ b) ++ (q ++ c) := by
    simp [String.append_assoc]
  rw [h]
  exact hasSubstr_of_parts ((a ++ p) ++ b) q c

/-- C6: The client wrappers address exactly the §6 endpoints: for every
storage state, application id and status, `updateApplicationStatus` issues a
PUT to `/applications/\x7bid\x7d/status` on the API base URL with body
`\x7b"status": …\x7d`, and for every job id `getApplicationsForJob` issues a
GET (no method option is passed, so `fetch` defaults to GET) to
`/applications/job/\x7bid\x7d` with no body. -/
theorem c6_application_endpoint_calls (st : LocalStorage)
    (applicationId jobId : Nat) (status : String) :
    (updateApplicationStatusCall st applicationId status).url =
      "http://localhost:8000/applications/" ++ toString applicationId ++
        "/status" ∧
    (updateApplicationStatusCall st applicationId status).method = "PUT" ∧
    (updateApplicationStatusCall st applicationId status).body =
      some ("\x7b\"status\":\"" ++ jsonEscape status ++ "\"\x7d") ∧
    (getApplicationsForJobCall st jobId).url =
      "http://localhost:8000/applications/job/" ++ toString jobId ∧
    (getApplicationsForJobCall st jobId).method = "GET" ∧
    (getApplicationsForJobCall st jobId).body = none :=
  ⟨rfl, rfl, rfl, rfl, rfl, rfl⟩

/-- C7: Navbar rendering depends only on the stored auth state: for every
stored user, `initNavbar` renders the role badge and name of the user and a logout
button, and a dashboard link that is `hr-dashboard.html` exactly when the
role is `hr` and `applicant-dashboard.html` otherwise; when no user is
stored it renders login and register links instead (and no logout button). -/
theorem c7_initNavbar_auth_state (u : User) :
    hasSubstr "hr-dashboard.html" (initNavbar (some u)).nav = (u.role == "hr") ∧
    hasSubstr "applicant-dashboard.html" (initNavbar (some u)).nav =
      (!(u.role == "hr")) ∧
    hasSubstr u.role.toUpper (initNavbar (some u)).user = true ∧
    hasSubstr u.full_name (initNavbar (some u)).user = true ∧
    hasSubstr "onclick=\"logout()\">Logout</button>" (initNavbar (some u)).user
      = true ∧
    hasSubstr "<a href=\"login.html\"" (initNavbar none).user = true ∧
    hasSubstr "<a href=\"register.html\"" (initNavbar none).user = true ∧
    hasSubstr "logout()" (initNavbar none).user = false := by
  refine ⟨?_, ?_, ?_, ?_, ?_, by decide, by decide, by decide⟩
  · cases hr : u.role == "hr" <;>
      simp only [initNavbar, dashboardLink, hr, Bool.false_eq_true,
        if_false, if_true] <;> decide
  · cases hr : u.role == "hr" <;>
      simp only [initNavbar, dashboardLink, hr, Bool.false_eq_true,
        if_false, if_true, Bool.not_false, Bool.not_true] <;> decide
  · exact hasSubstr_at2 _ u.role.toUpper _ u.full_name _
  · exact hasSubstr_at4 _ u.role.toUpper _ u.full_name _
  · exact hasSubstr_append_left _ _ _ (by decide)

/-- C8: For every storage state and every response, when `apiRequest`
receives status 401 it removes both the token and the user entry (so a
subsequent `isAuthenticated()` is false and `getCurrentUser()` is null),
redirects to the login page, and throws `Session expired` instead of
returning a result. -/
theorem c8_apiRequest_401_clears_auth (st : LocalStorage) (r : HttpResponse)
    (h : r.status = 401) :
    (apiRequestHandle st r).store.token = none ∧
    (apiRequestHandle st r).store.user = none ∧
    isAuthenticated (apiRequestHandle st r).store = false ∧
    getCurrentUser (apiRequestHandle st r).store = none ∧
    (apiRequestHandle st r).result = Except.error "Session expired" ∧
    (apiRequestHandle st r).redirect = some "/login.html" := by
  have h401 : (r.status == 401) = true := by simp [h]
  simp [apiRequestHandle, h401, clearAuth, isAuthenticated, getToken,
    getCurrentUser]

/-- Witness for C8 at a concrete storage state and 401 response. -/
theorem c8_witness :
    (apiRequestHandle { token := some "tok", user := some "u" }
        { status := 401, detail := none, data := "" }).store.token = none ∧
    (apiRequestHandle { token := some "tok", user := some "u" }
        { status := 401, detail := none, data := "" }).store.user = none ∧
    isAuthenticated (apiRequestHandle { token := some "tok", user := some "u" }
        { status := 401, detail := none, data := "" }).store = false ∧
    getCurrentUser (apiRequestHandle { token := some "tok", user := some "u" }
        { status := 401, detail := none, data := "" }).store = none ∧
    (apiRequestHandle { token := some "tok", user := some "u" }
        { status := 401, detail := none, data := "" }).result =
      Except.error "Session expired" ∧
    (apiRequestHandle { token := some "tok", user := some "u" }
        { status := 401, detail := none, data := "" }).redirect =
      some "/login.html" :=
  c8_apiRequest_401_clears_auth { token := some "tok", user := some "u" }
    { status := 401, detail := none, data := "" } rfl

/-- C9: Auth storage round trip: for every prior state, non-empty token and
user object, after `saveAuth(token, user)` the stored token is returned by
`getToken()`, `isAuthenticated()` is true and `getCurrentUser()` returns the
saved user; after `clearAuth()` `isAuthenticated()` is false and
`getCurrentUser()` returns null. -/
theorem c9_auth_roundtrip (st : LocalStorage) (token : String) (user : User)
    (h : token ≠ "") :
    getToken (saveAuth st token user) = some token ∧
    isAuthenticated (saveAuth st token user) = true ∧
    getCurrentUser (saveAuth st token user) = some user ∧
    isAuthenticated (clearAuth st) = false ∧
    getCurrentUser (clearAuth st) = none := by
  refine ⟨rfl, ?_, ?_, rfl, rfl⟩
  · have hne : token.isEmpty = false := by
      rcases Bool.eq_false_or_eq_true token.isEmpty with ht | hf
      · exact absurd ((String.isEmpty_iff token).mp ht) h
      · exact hf
    simp [isAuthenticated, getToken, saveAuth, hne]
  · show parseUser (stringifyUser user) = some user
    exact parseUser_stringifyUser user

/-- Witness for C9 at a concrete token and user. -/
theorem c9_witness :
    getToken (saveAuth { token := none, user := none } "tok"
        { role := "hr", full_name := "Ada B." }) = some "tok" ∧
    isAuthenticated (saveAuth { token := none, user := none } "tok"
        { role := "hr", full_name := "Ada B." }) = true ∧
    getCurrentUser (saveAuth { token := none, user := none } "tok"
        { role := "hr", full_name := "Ada B." }) =
      some { role := "hr", full_name := "Ada B." } ∧
    isAuthenticated (clearAuth { token := none, user := none }) = false ∧
    getCurrentUser (clearAuth { token := none, user := none }) = none :=
  c9_auth_roundtrip { token := none, user := none } "tok"
    { role := "hr", full_name := "Ada B." } (by decide)

/-- Counterexample to C10 as stated: toString is not one of the eight listed
statuses, yet `getStatusBadgeClass` does not yield the default badge-primary
for it — the bracket lookup finds the inherited `Object.prototype.toString`,
a truthy function, so the `||` fallback is not taken. -/
theorem c10_counterexample :
    "toString" ∉ (["pending", "reviewed", "shortlisted", "rejected", "hired",
      "active", "closed", "draft"] : List String) ∧
    getStatusBadgeClass "toString" ≠ JsValue.str "badge-primary" := by
  exact ⟨by decide, by decide⟩

/-- C10 (amended): `getStatusBadgeClass` maps each of the five application
statuses and three job statuses to its listed badge class; every other input
string that is not the name of an `Object.prototype` member yields the
default badge-primary; for a prototype member name (toString, constructor,
valueOf, …) the lookup returns the truthy inherited member instead of the
default. -/
theorem c10_getStatusBadgeClass_amended :
    getStatusBadgeClass "pending" = JsValue.str "badge-warning" ∧
    getStatusBadgeClass "reviewed" = JsValue.str "badge-info" ∧
    getStatusBadgeClass "shortlisted" = JsValue.str "badge-success" ∧
    getStatusBadgeClass "rejected" = JsValue.str "badge-danger" ∧
    getStatusBadgeClass "hired" = JsValue.str "badge-success" ∧
    getStatusBadgeClass "active" = JsValue.str "badge-success" ∧
    getStatusBadgeClass "closed" = JsValue.str "badge-danger" ∧
    getStatusBadgeClass "draft" = JsValue.str "badge-warning" ∧
    (∀ s : String,
      s ∉ (["pending", "reviewed", "shortlisted", "rejected", "hired",
        "active", "closed", "draft"] : List String) →
      s ∉ objectPrototypeKeys →
      getStatusBadgeClass s = JsValue.str "badge-primary") ∧
    (∀ s : String,
      s ∉ (["pending", "reviewed", "shortlisted", "rejected", "hired",
        "active", "closed", "draft"] : List String) →
      s ∈ objectPrototypeKeys →
      getStatusBadgeClass s = JsValue.inheritedMember s) := by
  refine ⟨rfl, rfl, rfl, rfl, rfl, rfl, rfl, rfl, ?_, ?_⟩
  · intro s hs hp
    simp only [List.mem_cons, List.not_mem_nil, or_false, not_or] at hs
    obtain ⟨h1, h2, h3, h4, h5, h6, h7, h8⟩ := hs
    simp [getStatusBadgeClass, classesLookup, h1, h2, h3, h4, h5, h6, h7, h8,
      hp]
  · intro s hs hp
    simp only [List.mem_cons, List.not_mem_nil, or_false, not_or] at hs
    obtain ⟨h1, h2, h3, h4, h5, h6, h7, h8⟩ := hs
    simp [getStatusBadgeClass, classesLookup, jsTruthy, h1, h2, h3, h4, h5,
      h6, h7, h8, hp]

/-- Witness for the amended C10 at an input outside both the eight listed
statuses and the prototype member names. -/
theorem c10_amended_witness :
    getStatusBadgeClass "archived" = JsValue.str "badge-primary" :=
  c10_getStatusBadgeClass_amended.2.2.2.2.2.2.2.2.1 "archived" (by decide)
    (by decide)
